import Mathlib

/-!
Verification of the animation sequencing core of the EndOfDayz GUI
(`csse7030.py`, with the grid geometry helper from `task1.py`).

The embedding follows the source closely:
* `get_position_center` embeds `AbstractGrid.get_position_center` (task1.py);
  Python `//` on non-negative integers is `Nat` division.
* `direction_from_positions`, `has_passed_target`, `move_one_step` and
  `crossboltStep` embed the corresponding `CrossboltAnimation` methods;
  the `ValueError` raised for identical start/target becomes `Except.error`.
* `tmInit` / `tmStep` embed `TimeMachineAnimation.__init__` / `step`; the
  call of the redraw callback on the reconstructed game is logged in the
  `drawn` field as the pair (cursor value, snapshot fetched at that index).
* `pyRoundDiv a b` embeds Python `round(a / b)` for natural `a`, `b`
  (round half to even; for the arguments arising here, `a / b` is exactly
  representable whenever it is a tie, so float rounding agrees).
* `AnimModel` abstracts an animation object as seen by `AnimationManager`:
  a step function on its mutable state, plus `get_frequency`.
  `step_animation` / `play_animation` embed the manager's trampoline as a
  fuel-indexed event-trace generator: each scheduled `canvas.after` call
  becomes a `sched` event carrying the requested interval.
-/

/-- Grid cell geometry (task1.py `AbstractGrid.get_position_center`):
pixel centre (x, y) of the cell at the given (row, col) position. -/
def get_position_center (cellWidth cellHeight : Nat) (position : Nat × Nat) :
    Int × Int :=
  let (row, col) := position
  (Int.ofNat (col * cellWidth + cellWidth / 2),
   Int.ofNat (row * cellHeight + cellHeight / 2))

/-- `CrossboltAnimation.STEP_SIZE`. -/
def STEP_SIZE : Nat := 25

/-- `CrossboltAnimation.ANGLE_MAP.get direction` (a `dict.get`, so `Option`). -/
def ANGLE_MAP (direction : Int × Int) : Option Nat :=
  if direction = (0, -1) then some 90
  else if direction = (0, 1) then some 270
  else if direction = (-1, 0) then some 180
  else if direction = (1, 0) then some 0
  else none

/-- `CrossboltAnimation._direction_from_positions`: the `ValueError` for
identical cells becomes `Except.error`. -/
def direction_from_positions (start target : Nat × Nat) :
    Except String (Int × Int) :=
  let (start_x, start_y) := start
  let (target_x, target_y) := target
  if start_x < target_x then Except.ok (0, 1)
  else if start_x > target_x then Except.ok (0, -1)
  else if start_y < target_y then Except.ok (1, 0)
  else if start_y > target_y then Except.ok (-1, 0)
  else Except.error "Invalid start and target specified for crossbolt animation"

/-- The mutable fields of a `CrossboltAnimation` instance set by `__init__`
and updated by `step` (pixel position, pixel target, direction, sprite
angle, canvas image handle). -/
structure CrossboltState where
  position : Int × Int
  target : Int × Int
  direction : Int × Int
  angle : Option Nat
  image : Option Unit
deriving DecidableEq

/-- `CrossboltAnimation.__init__(canvas, start, target)`: the canvas is
represented by its cell dimensions (task1.py stores `width // cols` and
`height // rows`).  The `ValueError` from `_direction_from_positions`
propagates out of the constructor. -/
def crossboltInit (cellWidth cellHeight : Nat) (start target : Nat × Nat) :
    Except String CrossboltState :=
  match direction_from_positions start target with
  | Except.error e => Except.error e
  | Except.ok direction =>
      Except.ok
        { position := get_position_center cellWidth cellHeight start
          target := get_position_center cellWidth cellHeight target
          direction := direction
          angle := ANGLE_MAP direction
          image := none }

/-- `CrossboltAnimation._has_passed_target`, branch for branch. -/
def has_passed_target (s : CrossboltState) : Bool :=
  let (dx, dy) := s.direction
  let (current_x, current_y) := s.position
  let (target_x, target_y) := s.target
  let moving_left := dy < 0
  let moving_right := dy > 0
  let moving_up := dx < 0
  let moving_down := dx > 0
  if moving_left ∧ current_y < target_y then true
  else if moving_right ∧ current_y > target_y then true
  else if moving_up ∧ current_x < target_x then true
  else if moving_down ∧ current_x > target_x then true
  else false

/-- `CrossboltAnimation._move_one_step`. -/
def move_one_step (s : CrossboltState) : CrossboltState :=
  let (current_x, current_y) := s.position
  let (dx, dy) := s.direction
  { s with position := (current_x + STEP_SIZE * dx, current_y + STEP_SIZE * dy) }

/-- `CrossboltAnimation._draw`: clears the previous image and records a new
canvas image handle. -/
def crossboltDraw (s : CrossboltState) : CrossboltState :=
  { s with image := some () }

/-- `CrossboltAnimation.step`. -/
def crossboltStep (s : CrossboltState) : Bool × CrossboltState :=
  if has_passed_target s then (false, s)
  else (true, move_one_step (crossboltDraw s))

/-- The four axis-aligned unit vectors a crossbolt can travel along. -/
def dirUnit (s : CrossboltState) : Prop :=
  s.direction = (0, 1) ∨ s.direction = (0, -1) ∨
  s.direction = (1, 0) ∨ s.direction = (-1, 0)

instance (s : CrossboltState) : Decidable (dirUnit s) := by
  unfold dirUnit; infer_instance

/-- Modelled from the spec words (refinement comparison only): the signed
distance from the target to the current position, projected along the
direction of travel. -/
def specSignedDistanceAlongAxis (s : CrossboltState) : Int :=
  (s.position.1 - s.target.1) * s.direction.1 +
  (s.position.2 - s.target.2) * s.direction.2

/-- Remaining signed offset from the current position to the target,
projected along the direction of travel (the quantity D of the spec). -/
def axisOffset (s : CrossboltState) : Int :=
  (s.target.1 - s.position.1) * s.direction.1 +
  (s.target.2 - s.position.2) * s.direction.2

/-- An animation object as the manager sees it: `step` acting on the
object's mutable state, and `get_frequency`. -/
structure AnimModel (σ : Type) where
  stepFn : σ → Bool × σ
  freqFn : σ → Nat

/-- Observable events of one `AnimationManager.play_animation` run:
`Animation.start`, each `step` call with its result, each `canvas.after`
scheduling with the requested interval, and `Animation.finish`. -/
inductive AnimEvent where
  | start : AnimEvent
  | stepRes : Bool → AnimEvent
  | sched : Nat → AnimEvent
  | finish : AnimEvent
deriving DecidableEq

/-- `AnimationManager._step_animation`, as a fuel-indexed trace generator:
call `step`; on `False` call `finish` and stop; on `True` schedule the next
call after `get_frequency()` milliseconds.  Fuel 0 means the run is cut
short (the real trampoline would continue). -/
def step_animation {σ : Type} (m : AnimModel σ) : Nat → σ → List AnimEvent
  | 0, _ => []
  | fuel + 1, s =>
      let r := m.stepFn s
      if r.1 then
        AnimEvent.stepRes true :: AnimEvent.sched (m.freqFn r.2) ::
          step_animation m fuel r.2
      else
        [AnimEvent.stepRes false, AnimEvent.finish]

/-- `AnimationManager.play_animation`: `start`, then the stepping loop. -/
def play_animation {σ : Type} (m : AnimModel σ) (fuel : Nat) (s : σ) :
    List AnimEvent :=
  AnimEvent.start :: step_animation m fuel s

/-- The animation's `step` returns `False` within the given number of calls. -/
def terminatesIn {σ : Type} (m : AnimModel σ) : Nat → σ → Bool
  | 0, _ => false
  | fuel + 1, s =>
      let r := m.stepFn s
      if r.1 then terminatesIn m fuel r.2 else true

/-- Results of `n` successive `step` calls on an animation. -/
def runResults {σ : Type} (m : AnimModel σ) : σ → Nat → List Bool
  | _, 0 => []
  | s, n + 1 =>
      let r := m.stepFn s
      r.1 :: runResults m r.2 n

/-- Animation state after `n` `step` calls. -/
def runStateN {σ : Type} (m : AnimModel σ) : σ → Nat → σ
  | s, 0 => s
  | s, n + 1 => runStateN m (m.stepFn s).2 n

/-- Python `round(a / b)` for naturals: round half to even.  (For the
divisions appearing in this program a tie `a / b = q + 1/2` is exactly
representable as a float, so float rounding agrees with rational
rounding.) -/
def pyRoundDiv (a b : Nat) : Nat :=
  let q := a / b
  let r := a % b
  if 2 * r < b then q
  else if b < 2 * r then q + 1
  else if q % 2 = 0 then q else q + 1

/-- Ceiling division on naturals, used to state the spec claim `ceil(D/S)`. -/
def ceilingDiv (a b : Nat) : Nat := (a + b - 1) / b

/-- `CrossboltAnimation.get_framerate`. -/
def crossboltGetFramerate : Nat := 10

/-- `Animation.get_frequency` for a crossbolt: `round(1000 / 10) = 100`. -/
def crossboltGetFrequency : Nat := pyRoundDiv 1000 crossboltGetFramerate

/-- The crossbolt animation as the manager sees it. -/
def crossboltModel : AnimModel CrossboltState :=
  { stepFn := crossboltStep, freqFn := fun _ => crossboltGetFrequency }

/-- The mutable fields of a `TimeMachineAnimation`: the snapshot list, the
cursor `_current_step` (an `Int`: it is `-1` for an empty list and after the
last frame), and a log of the redraw-callback invocations, recorded as
(cursor value, snapshot fetched at that index). -/
structure TMState (α : Type) where
  game_states : List α
  current_step : Int
  drawn : List (Int × Option α)
deriving DecidableEq

/-- `TimeMachineAnimation.__init__`: cursor starts at `len(game_states) - 1`. -/
def tmInit (α : Type) (states : List α) : TMState α :=
  { game_states := states
    current_step := (states.length : Int) - 1
    drawn := [] }

/-- `TimeMachineAnimation.step`: terminal when the cursor is negative;
otherwise redraw the snapshot at the cursor, decrement, continue. -/
def tmStep {α : Type} (s : TMState α) : Bool × TMState α :=
  if s.current_step < 0 then (false, s)
  else
    (true,
     { s with
       drawn := s.drawn ++ [(s.current_step, s.game_states.get? s.current_step.toNat)]
       current_step := s.current_step - 1 })

/-- `TimeMachineAnimation.get_frequency`: `round(1000 / len(game_states))`. -/
def tmGetFrequency {α : Type} (s : TMState α) : Nat :=
  pyRoundDiv 1000 s.game_states.length

/-- The time-machine animation as the manager sees it. -/
def tmModel (α : Type) : AnimModel (TMState α) :=
  { stepFn := tmStep, freqFn := tmGetFrequency }

/-- The lifecycle-hook slots of an `Animation` as Python attributes: `none`
means the attribute was never assigned (accessing it raises
`AttributeError`); `Hook.noop` is the `lambda: None` default. -/
inductive Hook (κ : Type) where
  | noop : Hook κ
  | user : κ → Hook κ
deriving DecidableEq

/-- The two callback attributes of an animation instance. -/
structure HookSlots (κ : Type) where
  start_callback : Option (Hook κ)
  finish_callback : Option (Hook κ)
deriving DecidableEq

/-- `Animation.__init__`: both callbacks default to a no-op. -/
def animationInitSlots (κ : Type) : HookSlots κ :=
  { start_callback := some Hook.noop, finish_callback := some Hook.noop }

/-- Callback attributes after `CrossboltAnimation.__init__`: it assigns only
the geometry fields and never calls `Animation.__init__`, so neither
callback attribute exists on a fresh instance. -/
def crossboltInitSlots (κ : Type) : HookSlots κ :=
  { start_callback := none, finish_callback := none }

/-- Callback attributes after `TimeMachineAnimation.__init__` (which does
call `Animation.__init__`). -/
def timeMachineInitSlots (κ : Type) : HookSlots κ :=
  animationInitSlots κ

/-- `Animation.on_start`: overwrite the single slot. -/
def on_start {κ : Type} (s : HookSlots κ) (k : κ) : HookSlots κ :=
  { s with start_callback := some (Hook.user k) }

/-- `Animation.on_finish`: overwrite the single slot. -/
def on_finish {κ : Type} (s : HookSlots κ) (k : κ) : HookSlots κ :=
  { s with finish_callback := some (Hook.user k) }

/-- `Animation.start`: read `self._start_callback` and fire it; a missing
attribute raises `AttributeError`. -/
def startFires {κ : Type} (s : HookSlots κ) : Except String (Hook κ) :=
  match s.start_callback with
  | none => Except.error "AttributeError: CrossboltAnimation object has no attribute _start_callback"
  | some c => Except.ok c

/-- `Animation.finish`: read `self._finish_callback` and fire it. -/
def finishFires {κ : Type} (s : HookSlots κ) : Except String (Hook κ) :=
  match s.finish_callback with
  | none => Except.error "AttributeError: CrossboltAnimation object has no attribute _finish_callback"
  | some c => Except.ok c

/-! ## Theorems -/

/-- C4: constructing a directional projectile animation whose start cell
equals its target cell fails synchronously at construction time with the
source's `ValueError`, for every coordinate pair and cell geometry. -/
theorem crossbolt_same_cell_construction_error (w h : Nat) (p : Nat × Nat) :
    crossboltInit w h p p =
      Except.error "Invalid start and target specified for crossbolt animation" := by
  obtain ⟨a, b⟩ := p
  simp [crossboltInit, direction_from_positions]

/-- Case analysis of `_direction_from_positions` on a successful return. -/
theorem direction_from_positions_cases (a b : Nat × Nat) (d : Int × Int)
    (h : direction_from_positions a b = Except.ok d) :
    (d = (0, 1) ∧ a.1 < b.1) ∨
    (d = (0, -1) ∧ b.1 < a.1) ∨
    (d = (1, 0) ∧ a.1 = b.1 ∧ a.2 < b.2) ∨
    (d = (-1, 0) ∧ a.1 = b.1 ∧ b.2 < a.2) := by
  obtain ⟨ax, ay⟩ := a
  obtain ⟨bx, by'⟩ := b
  simp only [direction_from_positions] at h
  split at h
  · exact Or.inl ⟨(Except.ok.injEq _ _ ▸ h).symm, by assumption⟩
  · split at h
    · exact Or.inr (Or.inl ⟨(Except.ok.injEq _ _ ▸ h).symm, by assumption⟩)
    · split at h
      · refine Or.inr (Or.inr (Or.inl ⟨(Except.ok.injEq _ _ ▸ h).symm, ?_, by assumption⟩))
        omega
      · split at h
        · refine Or.inr (Or.inr (Or.inr ⟨(Except.ok.injEq _ _ ▸ h).symm, ?_, by assumption⟩))
          omega
        · exact absurd h (by simp)

/-- C8: for distinct cells the derived direction exists, is one of the four
axis-aligned unit vectors, and when the rows differ it is determined by the
row comparison alone (row difference takes precedence). -/
theorem crossbolt_direction_unit_row_precedence (s t : Nat × Nat) (h : s ≠ t) :
    ∃ d, direction_from_positions s t = Except.ok d ∧
      (d = (0, 1) ∨ d = (0, -1) ∨ d = (1, 0) ∨ d = (-1, 0)) ∧
      (s.1 ≠ t.1 → d = if s.1 < t.1 then ((0 : Int), (1 : Int)) else (0, -1)) := by
  obtain ⟨sx, sy⟩ := s
  obtain ⟨tx, ty⟩ := t
  rcases Nat.lt_trichotomy sx tx with hlt | heq | hgt
  · refine ⟨(0, 1), ?_, Or.inl rfl, ?_⟩
    · simp [direction_from_positions, hlt]
    · intro _; simp [hlt]
  · subst heq
    rcases Nat.lt_trichotomy sy ty with hy | hy | hy
    · refine ⟨(1, 0), ?_, Or.inr (Or.inr (Or.inl rfl)), ?_⟩
      · simp [direction_from_positions, hy]
      · intro hc; exact absurd rfl hc
    · exact absurd (by simp [hy]) h
    · refine ⟨(-1, 0), ?_, Or.inr (Or.inr (Or.inr rfl)), ?_⟩
      · simp [direction_from_positions, Nat.lt_irrefl, hy, Nat.lt_asymm hy]
      · intro hc; exact absurd rfl hc
  · refine ⟨(0, -1), ?_, Or.inr (Or.inl rfl), ?_⟩
    · simp [direction_from_positions, Nat.lt_asymm hgt, hgt]
    · intro _; simp [Nat.lt_asymm hgt]

/-- Witness for C8 at the concrete pair (2,3) ≠ (5,3). -/
theorem crossbolt_direction_unit_row_precedence_witness :
    ((2, 3) : Nat × Nat) ≠ (5, 3) ∧
    ∃ d, direction_from_positions (2, 3) (5, 3) = Except.ok d ∧
      (d = (0, 1) ∨ d = (0, -1) ∨ d = (1, 0) ∨ d = (-1, 0)) ∧
      (((2, 3) : Nat × Nat).1 ≠ ((5, 3) : Nat × Nat).1 →
        d = if ((2, 3) : Nat × Nat).1 < ((5, 3) : Nat × Nat).1
            then ((0 : Int), (1 : Int)) else (0, -1)) :=
  ⟨by decide, crossbolt_direction_unit_row_precedence (2, 3) (5, 3) (by decide)⟩

/-- The four-branch overshoot predicate agrees with the single
signed-distance comparison for unit directions (helper form). -/
theorem hasPassed_iff_signed (s : CrossboltState) (hu : dirUnit s) :
    has_passed_target s = true ↔ 0 < specSignedDistanceAlongAxis s := by
  obtain ⟨⟨cx, cy⟩, ⟨tx, ty⟩, dir, ang, img⟩ := s
  rcases hu with h | h | h | h <;> (simp only at h; subst h) <;>
    (simp only [has_passed_target, specSignedDistanceAlongAxis]
     split_ifs <;> simp_all)

/-- Helper: the overshoot predicate, stated on the remaining offset. -/
theorem hasPassed_iff_axis (s : CrossboltState) (hu : dirUnit s) :
    has_passed_target s = true ↔ axisOffset s < 0 := by
  have h := hasPassed_iff_signed s hu
  have he : axisOffset s = -specSignedDistanceAlongAxis s := by
    simp only [axisOffset, specSignedDistanceAlongAxis]; ring
  rw [h, he]
  omega

theorem hasPassed_false_of_nonneg (s : CrossboltState) (hu : dirUnit s)
    (h0 : 0 ≤ axisOffset s) : has_passed_target s = false := by
  rw [Bool.eq_false_iff, Ne, hasPassed_iff_axis s hu]
  omega

theorem hasPassed_true_of_neg (s : CrossboltState) (hu : dirUnit s)
    (h0 : axisOffset s < 0) : has_passed_target s = true :=
  (hasPassed_iff_axis s hu).mpr h0

theorem crossboltStep_of_not_passed (s : CrossboltState)
    (h : has_passed_target s = false) :
    crossboltStep s = (true, move_one_step (crossboltDraw s)) := by
  simp [crossboltStep, h]

theorem crossboltStep_of_passed (s : CrossboltState)
    (h : has_passed_target s = true) : crossboltStep s = (false, s) := by
  simp [crossboltStep, h]

/-- Advancing one step preserves the direction, the target and the drawn
image, and shortens the remaining offset by exactly `STEP_SIZE`. -/
theorem move_step_effect (s : CrossboltState) (hu : dirUnit s) :
    (move_one_step (crossboltDraw s)).direction = s.direction ∧
    axisOffset (move_one_step (crossboltDraw s)) = axisOffset s - (STEP_SIZE : Int) ∧
    (move_one_step (crossboltDraw s)).image = some () := by
  obtain ⟨⟨cx, cy⟩, ⟨tx, ty⟩, dir, ang, img⟩ := s
  rcases hu with h | h | h | h <;> (simp only at h; subst h) <;>
    (refine ⟨rfl, ?_, rfl⟩
     simp [move_one_step, crossboltDraw, axisOffset, STEP_SIZE]
     ring)

/-- Direction preservation restated through `dirUnit`. -/
theorem move_step_dirUnit (s : CrossboltState) (hu : dirUnit s) :
    dirUnit (move_one_step (crossboltDraw s)) := by
  have h := (move_step_effect s hu).1
  unfold dirUnit at hu ⊢
  rw [h]
  exact hu

theorem runResults_succ {σ : Type} (m : AnimModel σ) (s : σ) (n : Nat) :
    runResults m s (n + 1) = (m.stepFn s).1 :: runResults m (m.stepFn s).2 n := rfl

/-- Unfolding `crossboltInit` on a successful construction. -/
theorem crossboltInit_ok_elim (w h : Nat) (a b : Nat × Nat) (s0 : CrossboltState)
    (hinit : crossboltInit w h a b = Except.ok s0) :
    direction_from_positions a b = Except.ok s0.direction ∧
    s0.position = get_position_center w h a ∧
    s0.target = get_position_center w h b := by
  unfold crossboltInit at hinit
  cases hdp : direction_from_positions a b with
  | error e => rw [hdp] at hinit; exact absurd hinit (by simp)
  | ok d =>
      rw [hdp] at hinit
      simp only at hinit
      injection hinit with hrec
      subst hrec
      exact ⟨rfl, rfl, rfl⟩

/-- A successfully constructed crossbolt has a unit direction. -/
theorem crossboltInit_dirUnit (w h : Nat) (a b : Nat × Nat) (s0 : CrossboltState)
    (hinit : crossboltInit w h a b = Except.ok s0) : dirUnit s0 := by
  obtain ⟨hdp, -, -⟩ := crossboltInit_ok_elim w h a b s0 hinit
  rcases direction_from_positions_cases a b s0.direction hdp with
    ⟨hd, -⟩ | ⟨hd, -⟩ | ⟨hd, -⟩ | ⟨hd, -⟩
  · exact Or.inl hd
  · exact Or.inr (Or.inl hd)
  · exact Or.inr (Or.inr (Or.inl hd))
  · exact Or.inr (Or.inr (Or.inr hd))

/-- At construction the target has not been passed: the remaining offset
along the travel direction is non-negative. -/
theorem crossboltInit_axis_nonneg (w h : Nat) (a b : Nat × Nat)
    (s0 : CrossboltState) (hinit : crossboltInit w h a b = Except.ok s0) :
    0 ≤ axisOffset s0 := by
  obtain ⟨hdp, hpos, htgt⟩ := crossboltInit_ok_elim w h a b s0 hinit
  obtain ⟨ax, ay⟩ := a
  obtain ⟨bx, by'⟩ := b
  rcases direction_from_positions_cases _ _ s0.direction hdp with
    ⟨hd, hc⟩ | ⟨hd, hc⟩ | ⟨hd, -, hc⟩ | ⟨hd, -, hc⟩ <;> simp only at hc
  · have hmul : (ax : Int) * (h : Int) ≤ (bx : Int) * (h : Int) := by
      exact_mod_cast Nat.mul_le_mul (Nat.le_of_lt hc) (Nat.le_refl h)
    simp [axisOffset, hpos, htgt, hd, get_position_center]
    omega
  · have hmul : (bx : Int) * (h : Int) ≤ (ax : Int) * (h : Int) := by
      exact_mod_cast Nat.mul_le_mul (Nat.le_of_lt hc) (Nat.le_refl h)
    simp [axisOffset, hpos, htgt, hd, get_position_center]
    omega
  · have hmul : (ay : Int) * (w : Int) ≤ (by' : Int) * (w : Int) := by
      exact_mod_cast Nat.mul_le_mul (Nat.le_of_lt hc) (Nat.le_refl w)
    simp [axisOffset, hpos, htgt, hd, get_position_center]
    omega
  · have hmul : (by' : Int) * (w : Int) ≤ (ay : Int) * (w : Int) := by
      exact_mod_cast Nat.mul_le_mul (Nat.le_of_lt hc) (Nat.le_refl w)
    simp [axisOffset, hpos, htgt, hd, get_position_center]
    omega

/-- C9: for every position, target and direction drawn from the four
axis-aligned unit vectors, the four-branch direction-specific overshoot
predicate of the source returns `true` iff the signed distance from the
target to the current position, projected along the direction of travel,
is strictly positive. -/
theorem crossbolt_overshoot_refinement (s : CrossboltState) (hu : dirUnit s) :
    has_passed_target s = true ↔ 0 < specSignedDistanceAlongAxis s :=
  hasPassed_iff_signed s hu

/-- Witness for C9 at a concrete overshot state (direction (0,1),
position past the target). -/
theorem crossbolt_overshoot_refinement_witness :
    dirUnit ⟨(12, 40), (12, 30), (0, 1), some 270, none⟩ ∧
    (has_passed_target ⟨(12, 40), (12, 30), (0, 1), some 270, none⟩ = true ↔
      0 < specSignedDistanceAlongAxis ⟨(12, 40), (12, 30), (0, 1), some 270, none⟩) :=
  ⟨by decide, crossbolt_overshoot_refinement _ (by decide)⟩

/-- C10: whenever construction succeeds (distinct cells, positive cell
dimensions), the overshoot predicate is false at the initial position, so
the first `step` call returns `true` and draws a frame. -/
theorem crossbolt_first_step_draws (w h : Nat) (a b : Nat × Nat)
    (s0 : CrossboltState) (hw : 0 < w) (hh : 0 < h)
    (hinit : crossboltInit w h a b = Except.ok s0) :
    has_passed_target s0 = false ∧
    crossboltStep s0 = (true, move_one_step (crossboltDraw s0)) ∧
    (move_one_step (crossboltDraw s0)).image = some () := by
  have hu := crossboltInit_dirUnit w h a b s0 hinit
  have h0 := crossboltInit_axis_nonneg w h a b s0 hinit
  have hp := hasPassed_false_of_nonneg s0 hu h0
  exact ⟨hp, crossboltStep_of_not_passed s0 hp, (move_step_effect s0 hu).2.2⟩

/-- Witness for C10: a 25×25-pixel grid, crossbolt from cell (1,1) up to
cell (0,1). -/
theorem crossbolt_first_step_draws_witness :
    0 < 25 ∧ 0 < 25 ∧
    crossboltInit 25 25 (1, 1) (0, 1) =
      Except.ok ⟨(37, 37), (37, 12), (0, -1), some 90, none⟩ ∧
    (has_passed_target ⟨(37, 37), (37, 12), (0, -1), some 90, none⟩ = false ∧
     crossboltStep ⟨(37, 37), (37, 12), (0, -1), some 90, none⟩ =
       (true, move_one_step (crossboltDraw ⟨(37, 37), (37, 12), (0, -1), some 90, none⟩)) ∧
     (move_one_step (crossboltDraw ⟨(37, 37), (37, 12), (0, -1), some 90, none⟩)).image =
       some ()) :=
  ⟨by decide, by decide, by rfl,
   crossbolt_first_step_draws 25 25 (1, 1) (0, 1)
     ⟨(37, 37), (37, 12), (0, -1), some 90, none⟩
     (by decide) (by decide) (by rfl)⟩

theorem runResults_crossbolt_succ (s : CrossboltState) (n : Nat) :
    runResults crossboltModel s (n + 1) =
      (crossboltStep s).1 :: runResults crossboltModel (crossboltStep s).2 n := rfl

/-- Core run-shape lemma for the crossbolt: from a unit-direction state with
remaining offset D ≥ 0 and D / STEP_SIZE = n, the next n + 1 step calls
return `true` and the call after that returns `false`. -/
theorem crossbolt_run_shape (n : Nat) :
    ∀ s : CrossboltState, dirUnit s → 0 ≤ axisOffset s →
      (axisOffset s).toNat / STEP_SIZE = n →
      runResults crossboltModel s (n + 2) =
        List.replicate (n + 1) true ++ [false] := by
  induction n with
  | zero =>
      intro s hu h0 hdiv
      have hp := hasPassed_false_of_nonneg s hu h0
      have hstep := crossboltStep_of_not_passed s hp
      obtain ⟨-, haxis, -⟩ := move_step_effect s hu
      have hu' := move_step_dirUnit s hu
      have hneg : axisOffset (move_one_step (crossboltDraw s)) < 0 := by
        rw [haxis]
        simp only [STEP_SIZE] at hdiv ⊢
        omega
      have hstep' := crossboltStep_of_passed _ (hasPassed_true_of_neg _ hu' hneg)
      show runResults crossboltModel s (1 + 1) = _
      rw [runResults_crossbolt_succ, hstep]
      show true :: runResults crossboltModel (move_one_step (crossboltDraw s)) (0 + 1) = _
      rw [runResults_crossbolt_succ, hstep']
      rfl
  | succ n ih =>
      intro s hu h0 hdiv
      have hp := hasPassed_false_of_nonneg s hu h0
      have hstep := crossboltStep_of_not_passed s hp
      obtain ⟨-, haxis, -⟩ := move_step_effect s hu
      have hu' := move_step_dirUnit s hu
      have h0' : 0 ≤ axisOffset (move_one_step (crossboltDraw s)) := by
        rw [haxis]
        simp only [STEP_SIZE] at hdiv ⊢
        omega
      have hdiv' : (axisOffset (move_one_step (crossboltDraw s))).toNat / STEP_SIZE = n := by
        rw [haxis]
        simp only [STEP_SIZE] at hdiv ⊢
        omega
      have ihres := ih _ hu' h0' hdiv'
      show runResults crossboltModel s ((n + 2) + 1) = _
      rw [runResults_crossbolt_succ, hstep]
      show true :: runResults crossboltModel (move_one_step (crossboltDraw s)) (n + 2) = _
      rw [ihres]
      simp [List.replicate_succ]

/-- C1 (amended): for a successfully constructed crossbolt with remaining
pixel offset D > 0 along the travel axis and step size S = STEP_SIZE, the
number of `step` calls returning `true` is `D / S + 1` (floor division plus
one, not `ceil(D / S)`), and the call after that returns `false`. -/
theorem crossbolt_true_step_count (w h : Nat) (a b : Nat × Nat)
    (s0 : CrossboltState) (hinit : crossboltInit w h a b = Except.ok s0)
    (hD : 0 < axisOffset s0) :
    runResults crossboltModel s0 ((axisOffset s0).toNat / STEP_SIZE + 2) =
      List.replicate ((axisOffset s0).toNat / STEP_SIZE + 1) true ++ [false] :=
  crossbolt_run_shape _ s0 (crossboltInit_dirUnit w h a b s0 hinit)
    (le_of_lt hD) rfl

/-- Witness for the amended C1: a 10×10-pixel grid, crossbolt from cell
(0,0) to cell (2,0): D = 20, one `true` step, then `false`. -/
theorem crossbolt_true_step_count_witness :
    crossboltInit 10 10 (0, 0) (2, 0) =
      Except.ok ⟨(5, 5), (5, 25), (0, 1), some 270, none⟩ ∧
    0 < axisOffset ⟨(5, 5), (5, 25), (0, 1), some 270, none⟩ ∧
    runResults crossboltModel ⟨(5, 5), (5, 25), (0, 1), some 270, none⟩
        ((axisOffset ⟨(5, 5), (5, 25), (0, 1), some 270, none⟩).toNat / STEP_SIZE + 2) =
      List.replicate
        ((axisOffset ⟨(5, 5), (5, 25), (0, 1), some 270, none⟩).toNat / STEP_SIZE + 1)
        true ++ [false] :=
  ⟨by rfl, by decide,
   crossbolt_true_step_count 10 10 (0, 0) (2, 0)
     ⟨(5, 5), (5, 25), (0, 1), some 270, none⟩ (by rfl) (by decide)⟩

/-- Counterexample to C1 as stated: from cell (0,0) to (0,3) on a
25×25-pixel grid (step size = one cell), D = 75, `ceil(D / S) = 3`, yet the
first four `step` calls all return `true` (the `false` comes fifth). -/
theorem crossbolt_ceil_claim_counterexample :
    ∃ s0, crossboltInit 25 25 (0, 0) (0, 3) = Except.ok s0 ∧
      ceilingDiv (axisOffset s0).toNat STEP_SIZE = 3 ∧
      runResults crossboltModel s0 5 = [true, true, true, true, false] :=
  ⟨⟨(12, 12), (87, 12), (1, 0), some 0, none⟩, by rfl, by decide, by decide⟩

theorem runStateN_succ {σ : Type} (m : AnimModel σ) (s : σ) (n : Nat) :
    runStateN m s (n + 1) = runStateN m (m.stepFn s).2 n := rfl

/-- Helper: shape of the manager's stepping loop under termination. -/
theorem step_animation_shape {σ : Type} (m : AnimModel σ) :
    ∀ (fuel : Nat) (s : σ), terminatesIn m fuel s = true →
      ∃ l, step_animation m fuel s =
          l ++ [AnimEvent.stepRes false, AnimEvent.finish] ∧
        ∀ e ∈ l, e = AnimEvent.stepRes true ∨ ∃ f, e = AnimEvent.sched f := by
  intro fuel
  induction fuel with
  | zero => intro s h; simp [terminatesIn] at h
  | succ n ih =>
      intro s h
      by_cases hb : (m.stepFn s).1
      · have h' : terminatesIn m n (m.stepFn s).2 = true := by
          simpa [terminatesIn, hb] using h
        obtain ⟨l, hl, hmem⟩ := ih _ h'
        refine ⟨AnimEvent.stepRes true ::
            AnimEvent.sched (m.freqFn (m.stepFn s).2) :: l, ?_, ?_⟩
        · simp [step_animation, hb, hl]
        · intro e he
          simp only [List.mem_cons] at he
          rcases he with rfl | rfl | he
          · exact Or.inl rfl
          · exact Or.inr ⟨_, rfl⟩
          · exact hmem e he
      · refine ⟨[], ?_, by simp⟩
        simp [step_animation, hb]

/-- C2: in every terminating `play_animation` run, `start` is the first
event and occurs once, `finish` is the last event and occurs once, it comes
right after the single `step` call returning `false`, and every event in
between is a `true` step or a scheduling call — in particular no `step`
call follows the one that returned `false`. -/
theorem play_animation_lifecycle {σ : Type} (m : AnimModel σ) (fuel : Nat)
    (s : σ) (h : terminatesIn m fuel s = true) :
    ∃ l, play_animation m fuel s =
        AnimEvent.start :: (l ++ [AnimEvent.stepRes false, AnimEvent.finish]) ∧
      ∀ e ∈ l, e = AnimEvent.stepRes true ∨ ∃ f, e = AnimEvent.sched f := by
  obtain ⟨l, hl, hmem⟩ := step_animation_shape m fuel s h
  exact ⟨l, by simp [play_animation, hl], hmem⟩

/-- Witness for C2: a one-snapshot time-machine replay, fuel 2. -/
theorem play_animation_lifecycle_witness :
    terminatesIn (tmModel Nat) 2 (tmInit Nat [7]) = true ∧
    ∃ l, play_animation (tmModel Nat) 2 (tmInit Nat [7]) =
        AnimEvent.start :: (l ++ [AnimEvent.stepRes false, AnimEvent.finish]) ∧
      ∀ e ∈ l, e = AnimEvent.stepRes true ∨ ∃ f, e = AnimEvent.sched f :=
  ⟨by decide, play_animation_lifecycle (tmModel Nat) 2 (tmInit Nat [7]) (by decide)⟩

/-- Invariant for the replay loop: from a cursor equal to n - 1, the next n
step calls return `true`, the call after returns `false`, and the redraw
log extends by the snapshots at indices n-1 down to 0, in that order. -/
theorem tm_run_invariant (α : Type) (n : Nat) :
    ∀ s : TMState α, s.current_step = (n : Int) - 1 →
      runResults (tmModel α) s (n + 1) = List.replicate n true ++ [false] ∧
      (runStateN (tmModel α) s n).drawn =
        s.drawn ++ (List.range n).reverse.map
          (fun k => (Int.ofNat k, s.game_states.get? k)) := by
  induction n with
  | zero =>
      intro s hc
      have hneg : s.current_step < 0 := by rw [hc]; decide
      have hstep1 : ((tmModel α).stepFn s).1 = false := by
        simp [tmModel, tmStep, hneg]
      refine ⟨?_, by simp [runStateN]⟩
      show runResults (tmModel α) s (0 + 1) = _
      rw [runResults_succ, hstep1]
      rfl
  | succ n ih =>
      intro s hc
      have hnneg : ¬ s.current_step < 0 := by rw [hc]; push_cast; omega
      have hcs : s.current_step = (n : Int) := by rw [hc]; push_cast; ring
      have hstep1 : ((tmModel α).stepFn s).1 = true := by
        simp [tmModel, tmStep, hnneg]
      have hstep2 : ((tmModel α).stepFn s).2 =
          { s with
            drawn := s.drawn ++
              [(s.current_step, s.game_states.get? s.current_step.toNat)]
            current_step := s.current_step - 1 } := by
        simp [tmModel, tmStep, hnneg]
      have hc' : ({ s with
            drawn := s.drawn ++
              [(s.current_step, s.game_states.get? s.current_step.toNat)]
            current_step := s.current_step - 1 } : TMState α).current_step =
          (n : Int) - 1 := by
        show s.current_step - 1 = (n : Int) - 1
        rw [hcs]
      obtain ⟨ih1, ih2⟩ := ih _ hc'
      constructor
      · show runResults (tmModel α) s ((n + 1) + 1) = _
        rw [runResults_succ, hstep1, hstep2, ih1]
        simp [List.replicate_succ]
      · rw [runStateN_succ, hstep2, ih2]
        show (s.drawn ++ [(s.current_step, s.game_states.get? s.current_step.toNat)]) ++
            (List.range n).reverse.map
              (fun k => (Int.ofNat k, s.game_states.get? k)) = _
        rw [hcs]
        simp [List.range_succ]

/-- C3: a replay over N snapshots produces exactly N `true` step calls, the
k-th (k = 1..N) redrawing the snapshot at index N-k — indices N-1 down to 0
in strictly decreasing order — and the (N+1)-th step call returns `false`. -/
theorem time_machine_replay (α : Type) (states : List α) :
    runResults (tmModel α) (tmInit α states) (states.length + 1) =
      List.replicate states.length true ++ [false] ∧
    (runStateN (tmModel α) (tmInit α states) states.length).drawn =
      (List.range states.length).reverse.map
        (fun k => (Int.ofNat k, states.get? k)) := by
  have h := tm_run_invariant α states.length (tmInit α states) (by simp [tmInit])
  simpa [tmInit] using h

/-- C7: a replay over zero snapshots is treated as already terminal: the
manager run is exactly start, one `false` step, finish — no scheduling
event occurs, so `get_frequency` (the only division by the snapshot count)
is never invoked. -/
theorem time_machine_empty_safe (α : Type) (fuel : Nat) (hf : 0 < fuel) :
    play_animation (tmModel α) fuel (tmInit α []) =
      [AnimEvent.start, AnimEvent.stepRes false, AnimEvent.finish] ∧
    ∀ f, AnimEvent.sched f ∉ play_animation (tmModel α) fuel (tmInit α []) := by
  obtain ⟨n, rfl⟩ : ∃ n, fuel = n + 1 := ⟨fuel - 1, by omega⟩
  have hstep1 : ((tmModel α).stepFn (tmInit α [])).1 = false := rfl
  constructor
  · simp [play_animation, step_animation, hstep1]
  · intro f
    simp [play_animation, step_animation, hstep1]

/-- Witness for C7 with concrete snapshot type and fuel 1. -/
theorem time_machine_empty_safe_witness :
    0 < 1 ∧
    (play_animation (tmModel Nat) 1 (tmInit Nat []) =
        [AnimEvent.start, AnimEvent.stepRes false, AnimEvent.finish] ∧
      ∀ f, AnimEvent.sched f ∉ play_animation (tmModel Nat) 1 (tmInit Nat [])) :=
  ⟨by decide, time_machine_empty_safe Nat 1 (by decide)⟩

/-- `pyRoundDiv a b` is a nearest integer to a/b: b·result is within b/2 of
a (stated multiplied through by 2 to stay in naturals). -/
theorem pyRoundDiv_nearest (a b : Nat) (hb : 0 < b) :
    2 * a ≤ 2 * (b * pyRoundDiv a b) + b ∧
    2 * (b * pyRoundDiv a b) ≤ 2 * a + b := by
  have hdm := Nat.div_add_mod a b
  have hlt : a % b < b := Nat.mod_lt a hb
  have hdist : b * (a / b + 1) = b * (a / b) + b := by ring
  simp only [pyRoundDiv]
  split_ifs <;> omega

/-- C6 (amended): the frame interval of a replay over N > 0 snapshots is
the fixed budget of 1000 ms (not 2000 ms) divided by N and rounded to the
nearest integer: N·interval is within N/2 of 1000. -/
theorem tm_frequency_budget (α : Type) (s : TMState α)
    (h0 : 0 < s.game_states.length) :
    2 * 1000 ≤ 2 * (s.game_states.length * tmGetFrequency s) +
      s.game_states.length ∧
    2 * (s.game_states.length * tmGetFrequency s) ≤ 2 * 1000 +
      s.game_states.length := by
  have h := pyRoundDiv_nearest 1000 s.game_states.length h0
  simpa [tmGetFrequency] using h

/-- Witness for the amended C6: N = 4 snapshots give interval 250 ms. -/
theorem tm_frequency_budget_witness :
    0 < (tmInit Nat [3, 4, 5, 6]).game_states.length ∧
    (2 * 1000 ≤ 2 * ((tmInit Nat [3, 4, 5, 6]).game_states.length *
        tmGetFrequency (tmInit Nat [3, 4, 5, 6])) +
        (tmInit Nat [3, 4, 5, 6]).game_states.length ∧
      2 * ((tmInit Nat [3, 4, 5, 6]).game_states.length *
        tmGetFrequency (tmInit Nat [3, 4, 5, 6])) ≤ 2 * 1000 +
        (tmInit Nat [3, 4, 5, 6]).game_states.length) :=
  ⟨by decide, tm_frequency_budget Nat (tmInit Nat [3, 4, 5, 6]) (by decide)⟩

/-- Counterexample to C6 as stated: with N = 4 snapshots the computed frame
interval is round(1000 / 4) = 250 ms, not the claimed 2000 / 4 = 500 ms. -/
theorem tm_frequency_counterexample :
    tmGetFrequency (tmInit Nat [3, 4, 5, 6]) = 250 ∧
    tmGetFrequency (tmInit Nat [3, 4, 5, 6]) ≠ 500 := by
  exact ⟨by decide, by decide⟩

/-- C5, evaluated against the code: on the base `Animation` (and on
`TimeMachineAnimation`, which calls the base constructor) both hooks
default to a no-op and a second registration overwrites the first; but a
`CrossboltAnimation` constructed without registering hooks has neither
callback attribute — its `__init__` never calls `Animation.__init__` — so
`start`/`finish` raise `AttributeError` instead of the claimed no-op. -/
theorem hook_slots_behaviour :
    startFires (crossboltInitSlots Nat) =
      Except.error "AttributeError: CrossboltAnimation object has no attribute _start_callback" ∧
    finishFires (crossboltInitSlots Nat) =
      Except.error "AttributeError: CrossboltAnimation object has no attribute _finish_callback" ∧
    startFires (animationInitSlots Nat) = Except.ok Hook.noop ∧
    finishFires (animationInitSlots Nat) = Except.ok Hook.noop ∧
    startFires (timeMachineInitSlots Nat) = Except.ok Hook.noop ∧
    finishFires (timeMachineInitSlots Nat) = Except.ok Hook.noop ∧
    ∀ k1 k2 : Nat,
      startFires (on_start (on_start (animationInitSlots Nat) k1) k2) =
        Except.ok (Hook.user k2) ∧
      finishFires (on_finish (on_finish (animationInitSlots Nat) k1) k2) =
        Except.ok (Hook.user k2) :=
  ⟨rfl, rfl, rfl, rfl, rfl, rfl, fun _ _ => ⟨rfl, rfl⟩⟩
